import Mathlib

/-!
Verification of the declarative animation timeline engine described in
spec.md against the repository sources `src/uniswap_liquidity_formulas.py`
(the `UniswapLiquidityBasics` scene) and `src/run_script.py` (the entry
point).  Pure numeric state is embedded over `ℚ`; scene-graph membership is
embedded as lists of element ids; the engine machinery that the scene
script delegates to its animation library (timeline sequencing, layout
placement, step execution) is modelled from the spec where noted.
-/

namespace UniswapSpec

/-- Round a rational to two decimal places, as the scene's
`"\x7bx:.2f\x7d"` label formatting does for values not at a half-cent tie. -/
def round2 (q : ℚ) : ℚ := (round (100 * q) : ℤ) / 100

/-! ### Continuous drive (src lines 44, 55, 58-63, 79)

The scene creates `tracker = ValueTracker(2.2)` and plays
`tracker.animate.set_value(7.5)` with `run_time=4, rate_func=linear`.
The dot updater `update_dot` recomputes `y_val = k_value / x_val` with
`k_value = 36`. -/

/-- `k_value = 36` from the source. -/
def kValue : ℚ := 36

/-- The derived value `y_val = k_value / x_val` computed inside
`update_dot` (src lines 58-61). -/
def derivedY (x : ℚ) : ℚ := kValue / x

/-- Initial tracker value `ValueTracker(2.2)` (src line 55). -/
def trackerStart : ℚ := 2.2

/-- Target tracker value `set_value(7.5)` (src line 79). -/
def trackerEnd : ℚ := 7.5

/-- `run_time=4` of the drive animation (src line 79). -/
def driveDuration : ℚ := 4

/-- Modelled from the spec: the `linear` easing function is the identity
on normalized time. -/
def linearEase (a : ℚ) : ℚ := a

/-- Value of the linearly driven tracker at timeline time `t` of the
drive animation: start plus eased fraction of the sweep. -/
def driveValue (t : ℚ) : ℚ :=
  trackerStart + (trackerEnd - trackerStart) * linearEase (t / driveDuration)

/-- C1: the tracker driven linearly from 2.2 to 7.5 over duration 4 takes
values 2.2, 4.85, 7.5 at t = 0, 2, 4, and the bound derived value
y = 36 / x recomputes to 16.36, 7.42, 4.8 there (to two decimals). -/
theorem continuous_drive_samples :
    driveValue 0 = 2.2 ∧ driveValue 2 = 4.85 ∧ driveValue 4 = 7.5 ∧
    round2 (derivedY (driveValue 0)) = 16.36 ∧
    round2 (derivedY (driveValue 2)) = 7.42 ∧
    round2 (derivedY (driveValue 4)) = 4.8 := by
  refine ⟨?_, ?_, ?_, ?_, ?_, ?_⟩ <;>
    norm_num [driveValue, trackerStart, trackerEnd, driveDuration, linearEase,
      derivedY, kValue, round2, round_eq, Int.floor_eq_iff]

/-! ### Layout primitives (spec 4.1; src lines 40, 52, 123, 131, 134-136)

The scene script positions elements with `next_to(anchor, direction,
aligned_edge, buff)`.  The placement computation itself lives in the
animation library, so it is modelled from the spec: the element is placed
adjacent to the anchor's bounding box along the direction unit vector at
distance `buffer`, aligned on `aligned_edge` on the perpendicular axis. -/

/-- An axis-aligned bounding box: center plus half-extents. -/
structure Box where
  cx : ℚ
  cy : ℚ
  hw : ℚ
  hh : ℚ
deriving DecidableEq, Repr

/-- Left edge x-coordinate of a box. -/
def Box.leftEdge (r : Box) : ℚ := r.cx - r.hw

/-- Right edge x-coordinate of a box. -/
def Box.rightEdge (r : Box) : ℚ := r.cx + r.hw

/-- Top edge y-coordinate of a box. -/
def Box.topEdge (r : Box) : ℚ := r.cy + r.hh

/-- Bottom edge y-coordinate of a box. -/
def Box.bottomEdge (r : Box) : ℚ := r.cy - r.hh

/-- The `DOWN` direction vector. -/
def DOWN : ℚ × ℚ := (0, -1)

/-- The `LEFT` direction/edge vector. -/
def LEFT : ℚ × ℚ := (-1, 0)

/-- Modelled from the spec: `LayoutError` for an invalid geometry request
(zero-length direction or negative spacing). -/
inductive LayoutError
  | zeroDirection
  | negativeBuffer
deriving DecidableEq, Repr

/-- Resolve one coordinate of an aligned-edge constraint: component `-1`
aligns the low edge with the anchor's low edge, `+1` the high edge, `0`
keeps the position computed from the direction offset. -/
def alignCoord (e lo hi half c0 : ℚ) : ℚ :=
  if e = -1 then lo + half else if e = 1 then hi - half else c0

/-- Modelled from the spec: the placement core of `place_next_to`.  The new
box of width `w` and height `h` sits adjacent to `anchor` along direction
`d` at gap `b`, then is aligned on edge `e` on the other axis. -/
def placeCore (anchor : Box) (w h : ℚ) (d e : ℚ × ℚ) (b : ℚ) : Box :=
  let cx0 := anchor.cx + d.1 * (anchor.hw + w / 2 + b)
  let cy0 := anchor.cy + d.2 * (anchor.hh + h / 2 + b)
  { cx := alignCoord e.1 anchor.leftEdge anchor.rightEdge (w / 2) cx0,
    cy := alignCoord e.2 anchor.bottomEdge anchor.topEdge (h / 2) cy0,
    hw := w / 2, hh := h / 2 }

/-- Modelled from the spec: `place_next_to(element, anchor, direction,
aligned_edge, buffer)` validates the request and computes the position
purely from the anchor's bounding box. -/
def place_next_to (anchor : Box) (w h : ℚ) (d e : ℚ × ℚ) (b : ℚ) :
    Except LayoutError Box :=
  if d = (0, 0) then .error .zeroDirection
  else if b < 0 then .error .negativeBuffer
  else .ok (placeCore anchor w h d e b)

/-- Sequentially place each remaining member next to the previous one. -/
def arrangeFrom (prev : Box) (d e : ℚ × ℚ) (b : ℚ) : List Box → List Box
  | [] => []
  | m :: rest =>
    let m' := placeCore prev (2 * m.hw) (2 * m.hh) d e b
    m' :: arrangeFrom m' d e b rest

/-- The repositioning pass of `arrange`: the first member keeps its place,
each later member is placed next to its predecessor. -/
def arrangeCore (d e : ℚ × ℚ) (b : ℚ) : List Box → List Box
  | [] => []
  | m :: rest => m :: arrangeFrom m d e b rest

/-- Modelled from the spec: `arrange(group, direction, aligned_edge,
buffer)` validates the request and repositions every member sequentially
along `direction`, preserving declaration order. -/
def arrange (d e : ℚ × ℚ) (b : ℚ) (ms : List Box) :
    Except LayoutError (List Box) :=
  if d = (0, 0) then .error .zeroDirection
  else if b < 0 then .error .negativeBuffer
  else .ok (arrangeCore d e b ms)

/-- Placing below with left alignment pins the top edge at the anchor's
bottom edge minus the buffer and the left edge at the anchor's left edge. -/
lemma placeCore_down_left (anchor : Box) (w h b : ℚ) :
    (placeCore anchor w h DOWN LEFT b).topEdge = anchor.bottomEdge - b ∧
    (placeCore anchor w h DOWN LEFT b).leftEdge = anchor.leftEdge := by
  constructor
  · simp [placeCore, DOWN, LEFT, alignCoord, Box.topEdge, Box.bottomEdge,
      Box.leftEdge]
    ring
  · simp [placeCore, DOWN, LEFT, alignCoord, Box.topEdge, Box.bottomEdge,
      Box.leftEdge]

/-- Every box produced by `arrangeFrom` below-left of `prev` keeps `prev`'s
left edge. -/
lemma arrangeFrom_down_left_leftEdge (b : ℚ) :
    ∀ (prev : Box) (ms : List Box) (r : Box),
      r ∈ arrangeFrom prev DOWN LEFT b ms → r.leftEdge = prev.leftEdge := by
  intro prev ms
  induction ms generalizing prev with
  | nil => intro r hr; simp [arrangeFrom] at hr
  | cons m rest ih =>
    intro r hr
    simp only [arrangeFrom, List.mem_cons] at hr
    rcases hr with h | h
    · rw [h]; exact (placeCore_down_left prev (2 * m.hw) (2 * m.hh) b).2
    · rw [ih _ r h]
      exact (placeCore_down_left prev (2 * m.hw) (2 * m.hh) b).2

/-- The chain of vertical-gap/left-alignment constraints holds from any
starting box through `arrangeFrom`. -/
lemma arrangeFrom_down_left_chain (b : ℚ) :
    ∀ (prev : Box) (ms : List Box),
      List.Chain (fun r1 r2 => r1.bottomEdge - r2.topEdge = b ∧
        r2.leftEdge = r1.leftEdge) prev (arrangeFrom prev DOWN LEFT b ms) := by
  intro prev ms
  induction ms generalizing prev with
  | nil => exact List.Chain.nil
  | cons m rest ih =>
    refine List.Chain.cons ⟨?_, ?_⟩ (ih _)
    · rw [(placeCore_down_left prev (2 * m.hw) (2 * m.hh) b).1]; ring
    · exact (placeCore_down_left prev (2 * m.hw) (2 * m.hh) b).2

/-- C4: for every group and every buffer `b ≥ 0`, `arrange(group, DOWN,
LEFT, buffer=b)` succeeds, preserves the member count/order, yields a
vertical gap of exactly `b` between every pair of consecutive members, and
gives all members an identical left-edge x-coordinate. -/
theorem arrange_down_left_spec (ms : List Box) (b : ℚ) (hb : 0 ≤ b) :
    ∃ out, arrange DOWN LEFT b ms = .ok out ∧
      out.length = ms.length ∧
      List.Chain' (fun r1 r2 => r1.bottomEdge - r2.topEdge = b ∧
        r2.leftEdge = r1.leftEdge) out ∧
      ∀ r ∈ out, ∀ q ∈ out, r.leftEdge = q.leftEdge := by
  refine ⟨arrangeCore DOWN LEFT b ms, ?_, ?_, ?_, ?_⟩
  · rw [arrange]
    rw [if_neg (by simp [DOWN]), if_neg (by simpa using not_lt.mpr hb)]
  · cases ms with
    | nil => simp [arrangeCore]
    | cons m rest =>
      simp only [arrangeCore, List.length_cons, Nat.succ_inj]
      induction rest generalizing m with
      | nil => simp [arrangeFrom]
      | cons m2 rest2 ih => simp only [arrangeFrom, List.length_cons]; rw [ih]
  · cases ms with
    | nil => simp [arrangeCore]
    | cons m rest =>
      simpa [arrangeCore] using arrangeFrom_down_left_chain b m rest
  · cases ms with
    | nil => simp [arrangeCore]
    | cons m rest =>
      have hall : ∀ r ∈ arrangeCore DOWN LEFT b (m :: rest),
          r.leftEdge = m.leftEdge := by
        intro r hr
        simp only [arrangeCore, List.mem_cons] at hr
        rcases hr with h | h
        · rw [h]
        · exact arrangeFrom_down_left_leftEdge b m rest r h
      intro r hr q hq
      rw [hall r hr, hall q hq]

/-- A closed instance of `arrange_down_left_spec` on three concrete unit
boxes with buffer 2/5. -/
theorem arrange_down_left_spec_witness :
    (0 : ℚ) ≤ 2 / 5 ∧
    ∃ out, arrange DOWN LEFT (2 / 5)
        [⟨0, 0, 1, 1⟩, ⟨3, 7, 1, 1⟩, ⟨5, 2, 2, 1⟩] = .ok out ∧
      out.length = 3 ∧
      List.Chain' (fun r1 r2 => r1.bottomEdge - r2.topEdge = 2 / 5 ∧
        r2.leftEdge = r1.leftEdge) out ∧
      ∀ r ∈ out, ∀ q ∈ out, r.leftEdge = q.leftEdge :=
  ⟨by norm_num,
    arrange_down_left_spec [⟨0, 0, 1, 1⟩, ⟨3, 7, 1, 1⟩, ⟨5, 2, 2, 1⟩]
      (2 / 5) (by norm_num)⟩

/-- C6: `place_next_to` and `arrange` fail with a `LayoutError` exactly
when the direction is the zero vector or the buffer is negative; on all
other inputs they succeed. -/
theorem layout_error_iff (anchor : Box) (w h : ℚ) (d e : ℚ × ℚ) (b : ℚ)
    (ms : List Box) :
    ((∃ err, place_next_to anchor w h d e b = .error err) ↔
      (d = (0, 0) ∨ b < 0)) ∧
    ((∃ err, arrange d e b ms = .error err) ↔ (d = (0, 0) ∨ b < 0)) := by
  constructor
  · rw [place_next_to]
    split_ifs with h1 h2 <;> simp_all
  · rw [arrange]
    split_ifs with h1 h2 <;> simp_all

/-! ### End-to-end section layout (src lines 121-139)

Within a formula section the script plays `FadeIn(heading)`, then
`Write(formula)` for the first formula placed
`next_to(heading, DOWN, aligned_edge=LEFT, buff=0.4)`, then
`TransformMatchingTex` for each later formula placed
`next_to(previous, DOWN, aligned_edge=LEFT, buff=0.3)`. -/

/-- Buffer used for the first formula below the heading (src line 131). -/
def firstFormulaBuff : ℚ := 0.4

/-- Buffer used for each subsequent formula (src line 135). -/
def nextFormulaBuff : ℚ := 0.3

/-- Position of the first formula `F1`: below the heading, left aligned,
at buffer `0.4` (src line 131). -/
def scriptF1 (hd : Box) (w1 h1 : ℚ) : Box :=
  placeCore hd w1 h1 DOWN LEFT firstFormulaBuff

/-- Position of the second formula `F2`: below `F1`, left aligned, at
buffer `0.3` (src lines 134-136). -/
def scriptF2 (hd : Box) (w1 h1 w2 h2 : ℚ) : Box :=
  placeCore (scriptF1 hd w1 h1) w2 h2 DOWN LEFT nextFormulaBuff

/-- Modelled from the spec: a completed `transform-matching` step leaves
its target at full visibility (fade-in of unmatched parts ends at
opacity 1). -/
def transformMatchingFinalOpacity : ℚ := linearEase 1

/-- Concrete heading box used in the C2 counterexample. -/
def demoHeading : Box := ⟨0, 0, 3, 1⟩

/-- C2 counterexample: with the heading a concrete 6x2 box and both
formulas 4x1, the vertical gap between consecutive formulas `F1` and `F2`
is not 0.4 (it is the source's `buff=0.3`), so the gaps are not all 0.4. -/
theorem end_to_end_gap_counterexample :
    ¬ ((scriptF1 demoHeading 4 1).bottomEdge -
        (scriptF2 demoHeading 4 1 4 1).topEdge = 2 / 5) := by
  norm_num [scriptF1, scriptF2, demoHeading, placeCore, DOWN, LEFT,
    alignCoord, Box.bottomEdge, Box.topEdge, Box.leftEdge,
    firstFormulaBuff, nextFormulaBuff]

/-- C2 amended: in the final state the heading sits above `F1`, which sits
above `F2`; all three share the left edge; the heading-to-`F1` gap is
exactly 0.4 while the `F1`-to-`F2` gap is exactly 0.3 (the script's
`buff=0.3` for subsequent formulas); and `F2` ends fully opaque. -/
theorem end_to_end_final_state (hd : Box) (w1 h1 w2 h2 : ℚ) :
    hd.bottomEdge - (scriptF1 hd w1 h1).topEdge = 2 / 5 ∧
    (scriptF1 hd w1 h1).bottomEdge - (scriptF2 hd w1 h1 w2 h2).topEdge
      = 3 / 10 ∧
    (scriptF1 hd w1 h1).topEdge < hd.bottomEdge ∧
    (scriptF2 hd w1 h1 w2 h2).topEdge < (scriptF1 hd w1 h1).bottomEdge ∧
    (scriptF1 hd w1 h1).leftEdge = hd.leftEdge ∧
    (scriptF2 hd w1 h1 w2 h2).leftEdge = (scriptF1 hd w1 h1).leftEdge ∧
    transformMatchingFinalOpacity = 1 := by
  have h1top := (placeCore_down_left hd w1 h1 firstFormulaBuff).1
  have h2top := (placeCore_down_left (scriptF1 hd w1 h1) w2 h2
    nextFormulaBuff).1
  rw [scriptF2, scriptF1] at *
  refine ⟨?_, ?_, ?_, ?_, ?_, ?_, ?_⟩
  · rw [h1top, firstFormulaBuff]; norm_num
  · rw [h2top, nextFormulaBuff]; norm_num
  · rw [h1top, firstFormulaBuff]; norm_num
  · rw [h2top, nextFormulaBuff]; norm_num
  · exact (placeCore_down_left hd w1 h1 firstFormulaBuff).2
  · exact (placeCore_down_left _ w2 h2 nextFormulaBuff).2
  · rw [transformMatchingFinalOpacity, linearEase]

/-! ### Timeline / batch ordering (spec 3, 4.4; src lines 33-161)

The scene script issues one batch per `self.play(...)` call in textual
order.  The sequencing machinery is the animation library's, so it is
modelled from the spec: a Timeline is an ordered list of batches, each
with a duration and an effect evaluated at a normalized progress in
`[0, 1]`; the Timeline only advances to the next batch after the current
batch's full duration has elapsed. -/

/-- Modelled from the spec: one batch of concurrently started animation
steps, reduced to its duration and its combined effect on the rendered
state at a normalized progress. -/
structure Batch (S : Type) where
  dur : ℚ
  act : S → ℚ → S

/-- Modelled from the spec: materialize the rendered state of a Timeline
at time `t`.  A batch still running is evaluated at its current progress;
a finished batch is applied at progress 1 and the remaining time is spent
in the later batches. -/
def renderTimeline {S : Type} : S → List (Batch S) → ℚ → S
  | s, [], _ => s
  | s, b :: rest, t =>
    if t ≤ 0 then s
    else if t < b.dur then b.act s (t / b.dur)
    else renderTimeline (b.act s 1) rest (t - b.dur)

/-- C3: batches take effect strictly in declaration order — at any
timeline time `t` before the batches of a prefix have all reached their
full duration, the batches that follow the prefix have no effect on the
rendered state. -/
theorem batch_order {S : Type} (s : S) (bs rest : List (Batch S)) (t : ℚ)
    (ht : t < (bs.map Batch.dur).sum) :
    renderTimeline s (bs ++ rest) t = renderTimeline s bs t := by
  induction bs generalizing s t with
  | nil =>
    simp only [List.map_nil, List.sum_nil] at ht
    cases rest with
    | nil => simp
    | cons b rest2 =>
      simp only [List.nil_append, renderTimeline]
      rw [if_pos (le_of_lt ht)]
  | cons b bs2 ih =>
    simp only [List.map_cons, List.sum_cons] at ht
    simp only [List.cons_append, renderTimeline]
    split_ifs with h1 h2
    · rfl
    · rfl
    · exact ih (b.act s 1) (t - b.dur) (by linarith)

/-- A closed instance of `batch_order`: with two unit-duration batches the
second batch has no effect on the state rendered at time 1/2. -/
theorem batch_order_witness :
    ((1 : ℚ) / 2) < (([⟨1, fun s _ => s + 1⟩] : List (Batch ℚ)).map
      Batch.dur).sum ∧
    renderTimeline (0 : ℚ)
        ([⟨1, fun s _ => s + 1⟩] ++ [⟨1, fun _ _ => 99⟩]) (1 / 2) =
      renderTimeline (0 : ℚ) [⟨1, fun s _ => s + 1⟩] (1 / 2) :=
  ⟨by norm_num,
    batch_order 0 [⟨1, fun s _ => s + 1⟩] [⟨1, fun _ _ => 99⟩] (1 / 2)
      (by norm_num)⟩

/-! ### Step execution and destroyed-element references (spec 4.3, 4.4, 7;
src lines 82, 151-153)

The scene script destroys elements with `FadeOut(...)`.  The failure
semantics is the engine's, modelled from the spec: on fade-out completion
the element is removed from the scene graph and its bindings are
released; a subsequent step referencing a destroyed element id fails with
`SceneReferenceError`. -/

/-- Modelled from the spec: the engine's unrecoverable errors relevant to
step execution. -/
inductive EngineError
  | sceneRef
  | incompatibleTransform
deriving DecidableEq, Repr

/-- The kinds of animation steps (spec 3, AnimationStep). -/
inductive StepKind
  | create
  | transformStep
  | fadeIn
  | fadeOut
  | indicate
  | transformMatching
deriving DecidableEq, Repr

/-- An animation step reduced to its kind and target element id. -/
structure AnimStep where
  kind : StepKind
  target : Nat
deriving DecidableEq, Repr

/-- The scene graph state tracked by the engine: visible element ids,
destroyed element ids, and the reactive bindings `(value id, element id)`
currently registered. -/
structure SceneState where
  alive : List Nat
  destroyed : List Nat
  bindings : List (Nat × Nat)
deriving DecidableEq, Repr

/-- Modelled from the spec: execute one animation step to completion on
the scene graph.  A step referencing a destroyed element id fails with
`SceneReferenceError`; non-create steps also require the target to be
present; a completed fade-out removes the target and releases its
bindings. -/
def execStep (st : SceneState) (s : AnimStep) : Except EngineError SceneState :=
  if s.target ∈ st.destroyed then .error .sceneRef
  else
    match s.kind with
    | .create => .ok { st with alive := st.alive ++ [s.target] }
    | .fadeOut =>
      if s.target ∈ st.alive then
        .ok { alive := st.alive.filter (· ≠ s.target),
              destroyed := s.target :: st.destroyed,
              bindings := st.bindings.filter (fun p => p.2 ≠ s.target) }
      else .error .sceneRef
    | _ =>
      if s.target ∈ st.alive then .ok st else .error .sceneRef

/-- Execute a sequence of animation steps in order, stopping at the first
error (the Timeline aborts at a failing step). -/
def execSteps (st : SceneState) : List AnimStep → Except EngineError SceneState
  | [] => .ok st
  | s :: rest =>
    match execStep st s with
    | .ok st2 => execSteps st2 rest
    | .error err => .error err

/-- A successful step never resurrects a destroyed id: every id destroyed
before the step is still destroyed after it. -/
lemma execStep_destroyed_mono (st st2 : SceneState) (s : AnimStep)
    (h : execStep st s = .ok st2) :
    ∀ x ∈ st.destroyed, x ∈ st2.destroyed := by
  intro x hx
  obtain ⟨k, tgt⟩ := s
  cases k <;>
    · simp only [execStep] at h
      split_ifs at h
      injection h with h2
      subst h2
      simp [hx]

/-- Destroyed ids persist through any successfully executed sequence of
steps. -/
lemma execSteps_destroyed_mono (ops : List AnimStep) :
    ∀ st st2 : SceneState, execSteps st ops = .ok st2 →
      ∀ x ∈ st.destroyed, x ∈ st2.destroyed := by
  induction ops with
  | nil =>
    intro st st2 h x hx
    rw [execSteps] at h
    injection h with h2
    subst h2
    exact hx
  | cons s rest ih =>
    intro st st2 h x hx
    rw [execSteps] at h
    cases hs : execStep st s with
    | ok stm =>
      rw [hs] at h
      exact ih stm st2 h x (execStep_destroyed_mono st stm s hs x hx)
    | error err =>
      rw [hs] at h
      exact Except.noConfusion h

/-- C5: when a fade-out step completes, the target is removed from the
scene graph and its bindings are released, and after any further sequence
of successfully executed steps, every subsequent step that references the
destroyed element's id fails with `SceneReferenceError`. -/
theorem fadeout_destroys (st st' : SceneState) (e : Nat)
    (h : execStep st ⟨.fadeOut, e⟩ = .ok st') :
    e ∉ st'.alive ∧ (∀ p ∈ st'.bindings, p.2 ≠ e) ∧
    ∀ (ops : List AnimStep) (st'' : SceneState),
      execSteps st' ops = .ok st'' →
      ∀ s : AnimStep, s.target = e → execStep st'' s = .error .sceneRef := by
  simp only [execStep] at h
  split_ifs at h with hd ha
  injection h with hst
  subst hst
  refine ⟨?_, ?_, ?_⟩
  · simp only [List.mem_filter, decide_eq_true_eq]
    intro hmem
    exact hmem.2 rfl
  · intro p hp
    simp only [List.mem_filter, decide_eq_true_eq] at hp
    exact hp.2
  · intro ops st'' hops s hs
    have he : e ∈ st''.destroyed :=
      execSteps_destroyed_mono ops _ st'' hops e (List.mem_cons_self e st.destroyed)
    have he' : s.target ∈ st''.destroyed := by rw [hs]; exact he
    rw [execStep, if_pos he']

/-- A closed instance of `fadeout_destroys`: after fading out element 5
from a concrete scene and then successfully creating a fresh element 9, a
transform step on 5 still fails with `SceneReferenceError`. -/
theorem fadeout_destroys_witness :
    execStep ⟨[5, 7], [], [(1, 5), (2, 7)]⟩ ⟨.fadeOut, 5⟩ =
      .ok ⟨[7], [5], [(2, 7)]⟩ ∧
    execSteps ⟨[7], [5], [(2, 7)]⟩ [⟨.create, 9⟩] =
      .ok ⟨[7, 9], [5], [(2, 7)]⟩ ∧
    execStep ⟨[7, 9], [5], [(2, 7)]⟩ ⟨.transformStep, 5⟩ =
      .error .sceneRef :=
  ⟨rfl, rfl,
    (fadeout_destroys ⟨[5, 7], [], [(1, 5), (2, 7)]⟩ ⟨[7], [5], [(2, 7)]⟩ 5
      rfl).2.2 [⟨.create, 9⟩] ⟨[7, 9], [5], [(2, 7)]⟩ rfl
      ⟨.transformStep, 5⟩ rfl⟩

/-! ### Reactive binding, rendering, and unbinding (src lines 55-81)

`update_dot` moves the dot to `axes.c2p(x_val, k_value / x_val)` with
`x_val = tracker.get_value()`; `coordinate_label` is an `always_redraw`
label showing `x` and `y = k_value / x` to two decimals;
`dot.remove_updater(update_dot)` (src line 81) detaches the binding. -/

/-- The affine coordinate map of the plot axes: origin plus per-axis
scale, abstracting `axes.c2p` (src line 61). -/
structure AxesMap where
  ox : ℚ
  oy : ℚ
  sx : ℚ
  sy : ℚ
deriving DecidableEq, Repr

/-- Convert graph coordinates to scene coordinates through the axes. -/
def c2p (a : AxesMap) (x y : ℚ) : ℚ × ℚ := (a.ox + a.sx * x, a.oy + a.sy * y)

/-- `update_dot` from the source: read the tracker value `x_val`, compute
`y_val = k_value / x_val`, and return the dot's new scene position
`axes.c2p(x_val, y_val)` (src lines 58-61). -/
def update_dot (a : AxesMap) (xVal : ℚ) : ℚ × ℚ := c2p a xVal (kValue / xVal)

/-- `coordinate_label` from the source: the two numbers shown by the
always-redrawn label, `x` and `y = k_value / x`, to two decimals
(src lines 65-73). -/
def coordinate_label (xVal : ℚ) : ℚ × ℚ := (round2 xVal, round2 (kValue / xVal))

/-- The mutable state of the continuous-drive portion of the scene: the
axes, the tracker's current value, the dot's stored position, whether the
dot's updater is attached, and whether the dot is still in the scene. -/
structure DriveState where
  ax : AxesMap
  trackerVal : ℚ
  dotPos : ℚ × ℚ
  dotBound : Bool
  dotAlive : Bool
deriving DecidableEq, Repr

/-- Run the attached updaters once: when the dot's updater is bound, the
dot is moved to `update_dot` of the current tracker value (the pull-model
recomputation the engine performs before each frame). -/
def applyUpdaters (s : DriveState) : DriveState :=
  if s.dotBound then { s with dotPos := update_dot s.ax s.trackerVal } else s

/-- The visible data captured by a rendered frame: the dot position and
the two numbers of the coordinate label. -/
structure Snapshot where
  dot : ℚ × ℚ
  labelNums : ℚ × ℚ
deriving DecidableEq, Repr

/-- Modelled from the spec: `render_frame` materializes the current
visual state — it runs the pull-model updaters, then snapshots the dot
position and the coordinate label.  Timeline time enters only through the
tracker value, which only `set` changes. -/
def render_frame (s : DriveState) : Snapshot × DriveState :=
  let s' := applyUpdaters s
  (⟨s'.dotPos, coordinate_label s'.trackerVal⟩, s')

/-- `ValueTracker.set_value`: store a new scalar in the tracker. -/
def setTracker (s : DriveState) (v : ℚ) : DriveState := { s with trackerVal := v }

/-- `dot.remove_updater(update_dot)` (src line 81): detach the binding
without touching anything else. -/
def remove_updater (s : DriveState) : DriveState := { s with dotBound := false }

/-- C7: rendering the same timeline instant twice with no intervening
`set` yields byte-identical snapshots, the second call leaves the state
exactly where the first left it, and rendering never changes the tracker
or removes the dot. -/
theorem render_frame_deterministic (s : DriveState) :
    (render_frame ((render_frame s).2)).1 = (render_frame s).1 ∧
    (render_frame ((render_frame s).2)).2 = (render_frame s).2 ∧
    ((render_frame s).2).trackerVal = s.trackerVal ∧
    ((render_frame s).2).dotAlive = s.dotAlive := by
  by_cases hb : s.dotBound
  · simp [render_frame, applyUpdaters, hb]
  · simp [render_frame, applyUpdaters, hb]

/-- One reactive-scene operation: a tracker `set` or a frame render. -/
inductive DriveOp
  | set (v : ℚ)
  | renderTick
deriving Repr

/-- Run a sequence of reactive-scene operations. -/
def runOps : DriveState → List DriveOp → DriveState
  | s, [] => s
  | s, .set v :: rest => runOps (setTracker s v) rest
  | s, .renderTick :: rest => runOps (applyUpdaters s) rest

/-- With the updater detached, any operation sequence leaves the dot's
position, liveness, and unbound status untouched. -/
lemma runOps_unbound (ops : List DriveOp) :
    ∀ s : DriveState, s.dotBound = false →
      (runOps s ops).dotPos = s.dotPos ∧
      (runOps s ops).dotAlive = s.dotAlive ∧
      (runOps s ops).dotBound = false := by
  induction ops with
  | nil => intro s hs; exact ⟨rfl, rfl, hs⟩
  | cons op rest ih =>
    intro s hs
    cases op with
    | set v => exact ih (setTracker s v) hs
    | renderTick =>
      have ha : applyUpdaters s = s := by
        rw [applyUpdaters, hs]
        simp
      rw [runOps, ha]
      exact ih s hs

/-- C8: after `remove_updater`, every subsequent sequence of tracker
changes and renders leaves the dot's state unchanged, and the dot itself
is not destroyed. -/
theorem unbind_stops_propagation (s : DriveState) (ops : List DriveOp) :
    (runOps (remove_updater s) ops).dotPos = s.dotPos ∧
    (runOps (remove_updater s) ops).dotAlive = s.dotAlive := by
  have h := runOps_unbound ops (remove_updater s) rfl
  exact ⟨h.1, h.2.1⟩

/-! ### Script entry point (src/run_script.py lines 10-28)

`render_scene` builds the override mapping
`{quality, output_file, media_dir, format, preview}`, renders the scene
under it, and prints `Rendered video to <path>`.  The renderer itself is
the external backend, modelled from the spec as producing the final
artifact path from the configuration. -/

/-- The configuration accepted by the entry point, with the five fields
of the source's `overrides` mapping (src/run_script.py lines 15-21). -/
structure RenderConfig where
  quality : String
  output_file : String
  media_dir : String
  format : String
  preview : Bool
deriving DecidableEq, Repr

/-- The override values the entry point declares
(src/run_script.py lines 15-21); `media_dir` is the project-relative
`media` directory. -/
def overridesConfig : RenderConfig :=
  { quality := "medium_quality", output_file := "uniswap_liquidity_basics",
    media_dir := "media", format := "mp4", preview := false }

/-- Modelled from the spec: the rendering backend's final artifact path
(`scene.renderer.file_writer.movie_file_path`) as a function of the
configuration it was run under. -/
def movie_file_path (c : RenderConfig) : String :=
  c.media_dir ++ "/" ++ c.output_file ++ "." ++ c.format

/-- `render_scene` from the source: run the scene under the override
configuration and report the configuration used together with the printed
message (src/run_script.py lines 23-28). -/
def render_scene : RenderConfig × String :=
  (overridesConfig, "Rendered video to " ++ movie_file_path overridesConfig)

/-- C9: the entry point runs under a configuration carrying quality,
output name, output directory, format, and preview values, and prints the
final artifact path produced by the backend under that configuration. -/
theorem render_scene_reports_artifact :
    render_scene.1.quality = "medium_quality" ∧
    render_scene.1.output_file = "uniswap_liquidity_basics" ∧
    render_scene.1.media_dir = "media" ∧
    render_scene.1.format = "mp4" ∧
    render_scene.1.preview = false ∧
    render_scene.2 = "Rendered video to " ++ movie_file_path render_scene.1 ∧
    movie_file_path render_scene.1 = "media/uniswap_liquidity_basics.mp4" := by
  refine ⟨rfl, rfl, rfl, rfl, rfl, rfl, ?_⟩
  rfl

/-! ### Scene-graph membership trace of `construct` (src lines 33-161)

Every `self.play(...)` that adds (`Write`, `FadeIn`, `Create`,
`TransformMatchingTex` target) or removes (`FadeOut`) elements is recorded
as membership operations in source order.  `Circumscribe`, waits, the
tracker drive, and `remove_updater` do not change membership. -/

/-- The scene elements created by `construct`, by source role; section
elements carry their section index (0-3) and formulas their index within
the section. -/
inductive ElemId
  | title
  | invariantCaption
  | axesPlot
  | curve
  | dotMark
  | coordLabel
  | heading (s : Nat)
  | formula (s : Nat) (i : Nat)
  | brace (s : Nat)
  | braceLabel (s : Nat)
  | closing
deriving DecidableEq, Repr

/-- A scene-graph membership operation. -/
inductive SceneOp
  | addElem (e : ElemId)
  | removeElem (e : ElemId)
deriving DecidableEq, Repr

/-- Apply one membership operation: adding appends a not-yet-present
element, removing drops it. -/
def applyOp (scene : List ElemId) : SceneOp → List ElemId
  | .addElem e => if e ∈ scene then scene else scene ++ [e]
  | .removeElem e => scene.filter (· ≠ e)

/-- Apply a sequence of membership operations in order. -/
def applyOps (scene : List ElemId) : List SceneOp → List ElemId
  | [] => scene
  | op :: rest => applyOps (applyOp scene op) rest

/-- Membership operations of the pre-section part of `construct`
(src lines 34-83): title, invariant caption, axes, curve, dot, and
coordinate label appear; everything but the title fades out. -/
def preludeOps : List SceneOp :=
  [.addElem .title, .addElem .invariantCaption, .addElem .axesPlot,
   .addElem .curve, .addElem .dotMark, .addElem .coordLabel,
   .removeElem .axesPlot, .removeElem .curve, .removeElem .dotMark,
   .removeElem .coordLabel, .removeElem .invariantCaption]

/-- Membership operations of one formula section with `nf` formulas
(src lines 121-153): heading and formulas appear (first by `Write`, later
ones as `TransformMatchingTex` targets), then brace and brace label; the
closing batch fades out brace, brace label, and the heading-plus-formulas
group. -/
def sectionOps (s nf : Nat) : List SceneOp :=
  [.addElem (.heading s)] ++
  (List.range nf).map (fun i => .addElem (.formula s i)) ++
  [.addElem (.brace s), .addElem (.braceLabel s),
   .removeElem (.brace s), .removeElem (.braceLabel s),
   .removeElem (.heading s)] ++
  (List.range nf).map (fun i => .removeElem (.formula s i))

/-- The formula counts of the four sections (src lines 85-119). -/
def sectionFormulaCount (s : Nat) : Nat := if s = 2 then 3 else 2

/-- All membership operations of `construct` up to and including section
`s` (sections are numbered 0-3). -/
def opsThroughSection (s : Nat) : List SceneOp :=
  preludeOps ++
  (List.range (s + 1)).flatMap (fun i => sectionOps i (sectionFormulaCount i))

/-- The full membership trace of `construct`: the prelude, the four
sections, then the closing line (src lines 155-161). -/
def constructOps : List SceneOp :=
  opsThroughSection 3 ++ [.addElem .closing]

/-- C10: mid-section the section's heading, formulas, brace, and brace
label are all in the scene; at the end of each of the four sections they
are all gone and only the title remains, so nothing but the title
persists into the next section; the final closing frame holds exactly the
title and the closing line. -/
theorem sections_torn_down :
    applyOps [] (preludeOps ++ (sectionOps 0 2).take 5) =
      [.title, .heading 0, .formula 0 0, .formula 0 1, .brace 0,
       .braceLabel 0] ∧
    applyOps [] (opsThroughSection 0) = [.title] ∧
    applyOps [] (opsThroughSection 1) = [.title] ∧
    applyOps [] (opsThroughSection 2) = [.title] ∧
    applyOps [] (opsThroughSection 3) = [.title] ∧
    applyOps [] constructOps = [.title, .closing] := by
  refine ⟨?_, ?_, ?_, ?_, ?_, ?_⟩ <;> rfl

end UniswapSpec
